import Mathlib

/-!
Verification of the memorious crawl-pipeline engine against its
natural-language specification.

The development shallowly embeds the relevant parts of the source tree:

* `memorious/logic/context.py` — `Context` (tag helpers, `make_key`,
  `skip_incremental`, `emit` and its dispatch to `crawler.defer`);
* `memorious/operations/initializers.py` — the `sequence` operation;
* `memorious/helpers/rule.py` — the rule engine (`parse_rule`, `apply`);
* `memorious/logic/http.py` — the lazily evaluated HTTP response wrapper
  (`response`, `fetch`, `serialize`, `deserialize`);
* `memorious/util.py` — `make_url_key`.

External collaborators (the anystore tag store, the archive, httpx, the
`re`/lxml engines, hash digests) are modelled by small executable
stand-ins that realise exactly the narrow contract the source relies on;
each such stand-in carries a doc comment saying what it models.
-/

set_option autoImplicit false

namespace Memorious

/-! ## Python-style values and dictionaries -/

/-- A small universe of Python values as they occur in the modelled code
paths: `None`, booleans, integers, strings, string-keyed dictionaries and
lists. -/
inductive PyVal where
  | vnone : PyVal
  | vbool : Bool → PyVal
  | vint : Int → PyVal
  | vstr : String → PyVal
  | vdict : List (String × PyVal) → PyVal
  | vlist : List PyVal → PyVal

/-- Python truthiness for the modelled values (`None`, `False`, `0`, `""`,
empty dict and empty list are falsy). -/
def PyVal.truthy : PyVal → Bool
  | .vnone => false
  | .vbool b => b
  | .vint n => n != 0
  | .vstr s => s ≠ ""
  | .vdict es => ¬ es.isEmpty
  | .vlist xs => ¬ xs.isEmpty

/-- A Python dictionary with string keys, as an association list (keys
unique, insertion order preserved — matching `dict` semantics for the
operations used here). -/
abbrev Data := List (String × PyVal)

/-- Dictionary lookup, `d.get(k)`: first binding for the key. -/
def dget (d : Data) (k : String) : Option PyVal :=
  match d with
  | [] => none
  | (k', v) :: rest => if k' = k then some v else dget rest k

/-- Dictionary assignment `d[k] = v`: replace in place when the key exists
(Python keeps the original position), append otherwise. -/
def dinsert (d : Data) (k : String) (v : PyVal) : Data :=
  if d.any (fun kv => kv.1 = k) then
    d.map (fun kv => if kv.1 = k then (k, v) else kv)
  else d ++ [(k, v)]

/-- Turn an optional string into the Python value stored for it (`None`
when absent). -/
def optStrPy : Option String → PyVal
  | some s => .vstr s
  | none => .vnone

/-- Read a Python value back as an optional string (`None` and non-strings
give `none`). -/
def pyAsStr : PyVal → Option String
  | .vstr s => some s
  | _ => none

/-- Truthiness of an optional boolean, as Python evaluates
`state.get("incremental")` (absent/`None` is falsy). -/
def optTruthy : Option Bool → Bool
  | some b => b
  | none => false

/-! ## The tag store

Models the `anystore.tags.Tags` client used by the source through its
narrow contract (`put`, `get`, `exists`): a key/value list where `put`
overwrites.  The source only ever hands it keys produced by
`Context.make_key`, which are `Option String`; a `None` key is modelled as
leaving the store untouched (resp. finding nothing). -/

/-- The tag store contents. -/
abbrev Tags := List (String × PyVal)

/-- Store a value under a key (overwrites an existing binding). -/
def tagsPut (tags : Tags) (key : Option String) (v : PyVal) : Tags :=
  match key with
  | none => tags
  | some k => (k, v) :: (tags : List (String × PyVal)).filter (fun kv => kv.1 ≠ k)

/-- Look a key up in the tag store. -/
def tagsGet (tags : Tags) (key : Option String) : Option PyVal :=
  match key with
  | none => none
  | some k =>
    match (tags : List (String × PyVal)).find? (fun kv => kv.1 = k) with
    | some kv => some kv.2
    | none => none

/-- Existence check for a key in the tag store. -/
def tagsExists (tags : Tags) (key : Option String) : Bool :=
  match key with
  | none => false
  | some k => (tags : List (String × PyVal)).any (fun kv => kv.1 = k)

/-! ## String helpers -/

/-- The whitespace characters recognised by Python's `str.strip()`. -/
def pyIsSpace (c : Char) : Bool :=
  c = ' ' || c = '\t' || c = '\n' || c = '\r' || c = '\x0b' || c = '\x0c'

/-- Whether `not key or not key.strip()` holds in Python: the string is
empty or consists only of whitespace. -/
def allSpace (s : String) : Bool :=
  s.data.all pyIsSpace

/-- Remove leading and trailing occurrences of a character from a
character list (Python's `str.strip(c)` for a single character). -/
def stripCharL (r : Char) (l : List Char) : List Char :=
  ((l.dropWhile (fun c => c = r)).reverse.dropWhile (fun c => c = r)).reverse

/-- Remove leading and trailing occurrences of a character from a string. -/
def stripChar (r : Char) (s : String) : String :=
  String.mk (stripCharL r s.data)

/-- Join a list of strings with a separator (Python's `sep.join`). -/
def joinSep (sep : String) : List String → String
  | [] => ""
  | [a] => a
  | a :: rest => a ++ sep ++ joinSep sep rest

/-- Python's `str.startswith`, character-wise. -/
def strStartsWith (s pre : String) : Bool :=
  pre.data.isPrefixOf s.data

/-- Python's `str.endswith`, character-wise. -/
def strEndsWith (s suffix : String) : Bool :=
  suffix.data.isSuffixOf s.data

/-- Python's character slicing `s[n:]`. -/
def strDrop (s : String) (n : Nat) : String :=
  String.mk (s.data.drop n)

/-- Python's `str.lower` for the character range the claims exercise. -/
def pyLower (s : String) : String :=
  String.mk (s.data.map Char.toLower)

/-- Python's `str.upper` for the character range the claims exercise. -/
def pyUpper (s : String) : String :=
  String.mk (s.data.map Char.toUpper)

/-- Python's `str.strip()` (whitespace trim on both ends). -/
def pyTrim (s : String) : String :=
  String.mk (((s.data.dropWhile pyIsSpace).reverse.dropWhile pyIsSpace).reverse)

/-- The scanner behind `splitOnStr`: split a character list at every
occurrence of the (non-empty) separator `s0 :: sep`.  The fuel argument
is the length of the scanned list at entry; each step shortens the list
by at least one character, so the fuel never runs out and the degenerate
exhaustion case is unreachable. -/
def splitOnGo (s0 : Char) (sep : List Char) :
    Nat → List Char → List Char → List (List Char)
  | _, [], acc => [acc.reverse]
  | 0, c :: rest, acc => [acc.reverse ++ c :: rest]
  | fuel + 1, c :: rest, acc =>
    if (s0 :: sep).isPrefixOf (c :: rest) then
      acc.reverse :: splitOnGo s0 sep fuel ((c :: rest).drop (sep.length + 1)) []
    else
      splitOnGo s0 sep fuel rest (c :: acc)

/-- Python's `str.split(sep)` for a non-empty separator (the whole string
when the separator is empty, a case no caller reaches). -/
def splitOnStr (sep : String) (s : String) : List String :=
  match sep.data with
  | [] => [s]
  | c :: cs => (splitOnGo c cs s.data.length s.data []).map String.mk

/-- Models `anystore.util.join_relpaths` (external helper, imported by the
source as `make_key`): strip slashes off every part, drop the empty ones,
join the rest with a slash; `None` when nothing remains.  The overloads on
`Context.make_key` in the source document exactly this contract (a string
for at least one non-empty part, `None` otherwise). -/
def joinRelpaths (parts : List String) : Option String :=
  let ps := (parts.map (stripChar '/')).filter (fun x => x ≠ "")
  if ps.isEmpty then none else some (joinSep "/" ps)

/-! ## The execution context

Embeds the state of `memorious.logic.context.Context` that the modelled
operations read: the crawler name and stage graph, the per-run flags, and
the settings consulted by `emit`. -/

/-- The per-invocation execution context (`Context.__init__`): crawler
name, the crawler's stage mapping (its key set), the current stage's
handler table, the run id, the `incremental` / `continue_on_error` flags
from the state dict (absent = `None`), and the settings `emit` consults
(`settings.debug` and the `sampling_rate` stage parameter). -/
structure Context where
  crawlerName : String
  stages : List String
  handlers : List (String × String)
  runId : String
  incremental : Option Bool
  continueOnError : Option Bool
  debug : Bool
  samplingRate : Option String

/-- Embeds `Crawler.validate_name` / `CrawlerStage._validate_name`: names
must match the pattern of alphanumerics, underscore and hyphen (and in
particular are non-empty and slash-free).  Raised as a `ValueError` at
load time, so every constructed crawler satisfies it. -/
def validName (s : String) : Bool :=
  s ≠ "" && s.data.all (fun c => c.isAlphanum || c = '_' || c = '-')

/-- Embeds `Context.make_key`: join the parts, return `None` when they are
empty; strip a leading crawler-name prefix; prepend the optional category
prefix; namespace under the crawler name. -/
def Context.make_key (ctx : Context) (parts : List String) (pre : Option String) :
    Option String :=
  match joinRelpaths parts with
  | none => none
  | some k0 =>
    let k1 := if strStartsWith k0 ctx.crawlerName then
        strDrop k0 (ctx.crawlerName.length + 1)
      else k0
    let k2 : Option String :=
      match pre with
      | some p => if p = "" then some k1 else joinRelpaths [p, k1]
      | none => some k1
    joinRelpaths (ctx.crawlerName :: k2.toList)

/-- Embeds `Context.set_tag`: ignore empty or whitespace-only keys,
otherwise store under the namespaced key. -/
def Context.set_tag (ctx : Context) (tags : Tags) (key : String) (v : PyVal) : Tags :=
  if allSpace key then tags
  else tagsPut tags (ctx.make_key [key] none) v

/-- Embeds `Context.get_tag`: ignore empty or whitespace-only keys,
otherwise read the namespaced key. -/
def Context.get_tag (ctx : Context) (tags : Tags) (key : String) : Option PyVal :=
  if allSpace key then none
  else tagsGet tags (ctx.make_key [key] none)

/-- Embeds `Context.check_tag`: ignore empty or whitespace-only keys,
otherwise test existence of the namespaced key. -/
def Context.check_tag (ctx : Context) (tags : Tags) (key : String) : Bool :=
  if allSpace key then false
  else tagsExists tags (ctx.make_key [key] none)

/-- Embeds `Context.skip_incremental`: never skip when incremental mode is
off; derive a key from the criteria under the `inc` prefix (and never skip
when none derives); skip when already tagged; otherwise tag and do not
skip.  Returns the verdict together with the updated tag store. -/
def Context.skip_incremental (ctx : Context) (tags : Tags) (criteria : List String) :
    Bool × Tags :=
  if ¬ optTruthy ctx.incremental then (false, tags)
  else
    match ctx.make_key criteria (some "inc") with
    | none => (false, tags)
    | some key =>
      if ctx.check_tag tags key then (true, tags)
      else (false, ctx.set_tag tags key (PyVal.vstr "inc"))

/-! ## URL keys (`memorious/util.py`) -/

/-- Models `banal.hash_data` (external): a deterministic content digest.
The source only relies on it being a deterministic, path-safe function of
its input; the stand-in prefixes the input. -/
def hashData (s : String) : String :=
  "h-" ++ s

/-- Split a string at the first occurrence of a separator, returning the
part before it and the (possibly empty) part after it. -/
def splitFirst (sep : String) (s : String) : String × String :=
  match splitOnStr sep s with
  | [] => (s, "")
  | [a] => (a, "")
  | a :: rest => (a, joinSep sep rest)

/-- Models the `urllib.parse.urlsplit` fields the source reads: the
network location, path and query of a URL.  A URL without a scheme
separator has an empty network location and is all path, matching the
stdlib's behaviour on inputs like `example.com/x`. -/
def urlsplitParts (u : String) : String × String × String :=
  let (beforeFrag, _) := splitFirst "#" u
  let (beforeQuery, query) := splitFirst "?" beforeFrag
  match splitOnStr "://" beforeQuery with
  | [] => ("", "", query)
  | [only] => ("", only, query)
  | _ :: rest =>
    let after := joinSep "://" rest
    let (netloc, path) := splitFirst "/" after
    (netloc, if after.length = netloc.length then "" else "/" ++ path, query)

/-- Embeds `util.make_url_key`: a path-like key from method, network
location and path, with hashed query, optional hashed content and a hash
of the whole URL appended.  The source's `Optional` result of
`join_relpaths` is collapsed with the same `or` the callers rely on. -/
def make_url_key (url : String) (method : String) (content : Option String) :
    String :=
  let (netloc, path, query) := urlsplitParts url
  let m := if method = "" then "GET" else method
  let keyParts := [pyUpper m, netloc, path]
    ++ (if query ≠ "" then [hashData query] else [])
    ++ (match content with
        | some c => if c ≠ "" then [hashData c] else []
        | none => [])
    ++ [hashData url]
  (joinRelpaths keyParts).getD ""

/-! ## Emit (`Context.emit`, `Context._make_emit_cache_key`)

The dispatcher (`crawler.defer`, realised by `tasks.defer_stage`) is the
sink of `emit`; the embedding records each handed-off job verbatim. -/

/-- Read a Python value as the string key material `make_key` receives
from it; the modelled data dictionaries only carry strings in the fields
`_make_emit_cache_key` consults. -/
def pyKeyStr : PyVal → String
  | .vstr s => s
  | .vint n => toString n
  | .vbool b => if b then "True" else "False"
  | _ => ""

/-- The truthy value of a data field, as `_make_emit_cache_key` tests it
(`cache_key = data.get(...)` followed by `if cache_key:`). -/
def dgetTruthy (data : Data) (k : String) : Option PyVal :=
  match dget data k with
  | some v => if v.truthy then some v else none
  | none => none

/-- Embeds `Context._make_emit_cache_key`: first truthy one of
`emit_cache_key`, `foreign_id`, `content_hash` wins, then the normalised
URL (via `make_url_key`); all namespaced under the `emit` prefix; `None`
otherwise. -/
def Context.makeEmitCacheKey (ctx : Context) (data : Data) : Option String :=
  match dgetTruthy data "emit_cache_key" with
  | some v => ctx.make_key [pyKeyStr v] (some "emit")
  | none =>
    match dgetTruthy data "foreign_id" with
    | some v => ctx.make_key [pyKeyStr v] (some "emit")
    | none =>
      match dgetTruthy data "content_hash" with
      | some v => ctx.make_key [pyKeyStr v] (some "emit")
      | none =>
        match dgetTruthy data "url" with
        | some v => ctx.make_key [make_url_key (pyKeyStr v) "GET" none] (some "emit")
        | none => none

/-- One job handed to `crawler.defer` (realised by `tasks.defer_stage`):
target stage, payload data, run id and the two run flags. -/
structure DeferCall where
  stage : String
  data : Data
  run_id : String
  incremental : Bool
  continue_on_error : Bool

/-- The observable outcome of one `Context.emit` call: the caller's data
dictionary as it stands when `emit` returns (the source mutates it in the
incremental branch), and the jobs handed to the dispatcher. -/
structure EmitResult where
  callerData : Data
  deferred : List DeferCall

/-- The stage resolution step of `emit`: the explicit stage argument, or
the handler-table entry for the rule label. -/
def Context.resolveStage (ctx : Context) (rule : String) (stageArg : Option String) :
    Option String :=
  match stageArg with
  | some s => some s
  | none =>
    match ctx.handlers.find? (fun kv => kv.1 = rule) with
    | some kv => some kv.2
    | none => none

/-- The dedup-skip test of `emit`'s incremental branch (`if cache_key and
self.check_tag(cache_key)` in the source). -/
def Context.emitCacheHit (ctx : Context) (tags : Tags) (data : Data) : Bool :=
  match ctx.makeEmitCacheKey data with
  | some k => k ≠ "" && ctx.check_tag tags k
  | none => false

/-- The debug-sampling test of `emit` (`settings.debug`, a configured
`sampling_rate` and a random draw above it, the latter given as
`randAbove`). -/
def Context.emitSampledOut (ctx : Context) (randAbove : Bool) : Bool :=
  ctx.debug &&
    (match ctx.samplingRate with
     | some r => r ≠ "" && randAbove
     | none => false)

/-- Embeds `Context.emit`.  `randAbove` models the `random.random() >
float(sampling_rate)` draw of the debug-sampling branch (the only
non-deterministic input).  The `delay` argument is logged only in the
source and has no effect.  Following the source line by line: rebind the
data with `data = data or {}` — an absent or empty (falsy) dictionary is
replaced by a fresh one, so only a non-empty caller dictionary stays
aliased to the local `data` — resolve the stage, silently return when the
target is missing or unknown, consult the dedup tag and stash the cache
key into `data` when incremental (reaching the caller's dictionary
exactly when it was non-empty), apply debug sampling, deep-copy, defer
with `incremental or True` and `continue_on_error or False`.  The
`callerData` field reports the caller's dictionary as `emit` returns:
the stashed one when it was aliased, the value handed in otherwise. -/
def Context.emit (ctx : Context) (tags : Tags) (randAbove : Bool)
    (rule : String) (stageArg : Option String) (dataArg : Option Data)
    ( _delay : Option Int) (optional : Bool) : EmitResult :=
  let data := dataArg.getD []
  let stage := ctx.resolveStage rule stageArg
  if optional && stage.isNone then ⟨data, []⟩
  else
    match stage with
    | none => ⟨data, []⟩
    | some st =>
      if ¬ ctx.stages.contains st then ⟨data, []⟩
      else
        if optTruthy ctx.incremental && ctx.emitCacheHit tags data then ⟨data, []⟩
        else
          let data1 :=
            if optTruthy ctx.incremental then
              dinsert data "_emit_cache_key" (optStrPy (ctx.makeEmitCacheKey data))
            else data
          let callerData := if data.isEmpty then data else data1
          if ctx.emitSampledOut randAbove then ⟨callerData, []⟩
          else
            ⟨callerData,
              [{ stage := st
                 data := data1
                 run_id := ctx.runId
                 incremental := optTruthy ctx.incremental || true
                 continue_on_error := optTruthy ctx.continueOnError || false }]⟩

/-! ## The sequence initializer (`operations/initializers.py`)

The operation's `context.emit(data=data)` calls are recorded as the
emitted numbers (the claims and the repository's own tests count the
`emit` calls and their `number` payloads).  The unbounded `while True`
loop is given explicit fuel; every claim below evaluates it on concrete
inputs where the fuel is visibly sufficient. -/

/-- The parameters of the `sequence` operation, with the source's
defaults (`start` 1, `step` 1); `stop` is required by every configuration
the claims exercise. -/
structure SeqParams where
  start : Int := 1
  stop : Int
  step : Int := 1
  delay : Option Int := none
  tag : Option String := none

/-- The loop body of `sequence`: emit the number unless its tag exists,
always set the tag when tagging is configured, advance, stop past the
bound, otherwise either recurse (delay configured) or continue.  Returns
the numbers emitted, the updated tag store and the number a recursive
re-invocation was requested for. -/
def seqLoop (ctx : Context) (p : SeqParams) :
    Nat → Int → Tags → List Int × Tags × Option Int
  | 0, _, tags => ([], tags, none)
  | fuel + 1, number, tags =>
    let tag := p.tag.map (fun pre => pre ++ ":" ++ toString number)
    let emitted :=
      match tag with
      | none => true
      | some t => ¬ ctx.check_tag tags t
    let out := if emitted then [number] else []
    let tags1 :=
      match tag with
      | none => tags
      | some t => ctx.set_tag tags t (PyVal.vbool true)
    let number1 := number + p.step
    if p.step > 0 && number1 ≥ p.stop then (out, tags1, none)
    else if p.step < 0 && number1 ≤ p.stop then (out, tags1, none)
    else
      match p.delay with
      | some _ => (out, tags1, some number1)
      | none =>
        let (rest, tags2, rec) := seqLoop ctx p fuel number1 tags1
        (out ++ rest, tags2, rec)

/-- One invocation of the `sequence` operation: the starting number is the
incoming `number` datum or the `start` parameter. -/
def sequenceOnce (ctx : Context) (p : SeqParams) (fuel : Nat)
    (dataNumber : Option Int) (tags : Tags) : List Int × Tags × Option Int :=
  seqLoop ctx p fuel (dataNumber.getD p.start) tags

/-- Drive the recursive mode: follow each `context.recurse` request (which
re-invokes the stage with the requested `number` in its data) until the
operation stops.  In immediate mode (no delay) a single invocation is the
whole run. -/
def sequenceRun (ctx : Context) (p : SeqParams) (fuel : Nat) :
    Nat → Option Int → Tags → List Int × Tags
  | 0, _, tags => ([], tags)
  | hops + 1, dataNumber, tags =>
    let (out, tags1, rec) := sequenceOnce ctx p fuel dataNumber tags
    match rec with
    | none => (out, tags1)
    | some m =>
      let (out2, tags2) := sequenceRun ctx p fuel hops (some m) tags1
      (out ++ out2, tags2)

/-! ## The rule engine (`memorious/helpers/rule.py`)

Rule specifications arrive as parsed YAML values; `PySpec` is their
embedding (mappings, lists, strings, `None`).  `Rule` is the parsed
expression tree.  The external matching engines (the `re` module for
`PatternRule`, lxml for `XpathRule`) are abstracted as function
parameters of `apply`; the boolean structure, the guards and the string
operations are embedded from the source. -/

mutual
/-- A parsed-YAML rule specification value. -/
inductive PySpec where
  | pdict : SpecEntries → PySpec
  | plist : SpecList → PySpec
  | pstr : String → PySpec
  | pnone : PySpec

/-- The entries of a specification mapping (keys are unique, as in a
Python dict). -/
inductive SpecEntries where
  | nil : SpecEntries
  | cons : String → PySpec → SpecEntries → SpecEntries

/-- A list of specification values. -/
inductive SpecList where
  | nil : SpecList
  | cons : PySpec → SpecList → SpecList
end

/-- The number of keys of a specification mapping (`len(spec)`). -/
def SpecEntries.length : SpecEntries → Nat
  | .nil => 0
  | .cons _ _ rest => 1 + rest.length

mutual
/-- The parsed rule tree: one constructor per rule class of the source.
`domainR` carries the value after `clean_domain` normalisation,
`mimeTypeR` the value after `normalize_mimetype`, mirroring what the
pydantic validators store on the model. -/
inductive Rule where
  | orR : RuleList → Rule
  | andR : RuleList → Rule
  | notR : Rule → Rule
  | matchAll : Rule
  | domainR : String → Rule
  | mimeTypeR : Option String → Rule
  | mimeGroupR : String → Rule
  | patternR : String → Rule
  | xpathR : String → Rule

/-- The children of an `and` / `or` rule. -/
inductive RuleList where
  | nil : RuleList
  | cons : Rule → RuleList → RuleList
end

/-- The view of a `ContextHttpResponse` that rule application reads:
`url`, the normalised `content_type` and the decoded `text` body (each
absent when the underlying data is missing). -/
structure RResponse where
  url : Option String
  contentType : Option String
  text : Option String

/-- Models `rigour.mime.normalize_mimetype` (external) through the
contract the source relies on: a cleaned lowercase MIME string, absent
for empty input. -/
def normalizeMimetype (s : String) : Option String :=
  let t := pyLower (pyTrim s)
  if t = "" then none else some t

/-- Models `memorious.logic.mime.GROUPS` from the spec: the MIME group
table (module not present under `src/`); the spec describes `mime_group`
as a MIME prefix match against a named group, or a group-table lookup.
A small representative table suffices for the claims. -/
def GROUPS : List (String × List String) :=
  [ ("documents", ["application/pdf", "application/msword"])
  , ("archives", ["application/zip", "application/x-tar"])
  , ("web", ["text/html", "text/xml"]) ]

/-- The hostname of a URL as `urllib.parse.urlparse(...).hostname` returns
it (modelled): the network location without credentials and port,
lowercased; absent when the URL has no scheme separator or an empty
network location. -/
def urlHostname (u : String) : Option String :=
  let (netloc, _, _) := urlsplitParts u
  if netloc = "" then none
  else
    let afterCreds := (splitOnStr "@" netloc).getLastD netloc
    let host := (splitFirst ":" afterCreds).1
    if host = "" then none else some (pyLower host)

/-- Embeds `DomainRule.clean_domain`: reject the empty value, take the
hostname of the parsed value or, failing that, its path, strip dots and
lowercase. -/
def cleanDomain (v : String) : Except String String :=
  if v = "" then .error "Domain cannot be empty"
  else
    let (_, path, _) := urlsplitParts v
    let dom := (urlHostname v).getD path
    .ok (pyLower (stripChar '.' dom))

mutual
/-- Embeds the `apply` methods of the rule classes.  `regexMatch p u`
models `re.compile(p, re.I | re.U).match(u)` and `xpathHit x t` models
the parse-and-select block of `XpathRule.apply` (both external engines;
the source's exception guard around the latter makes it total, like the
function parameter). -/
def ruleApply (regexMatch : String → String → Bool)
    (xpathHit : String → String → Bool) : Rule → RResponse → Bool
  | .orR cs, r => ruleApplyAny regexMatch xpathHit cs r
  | .andR cs, r => ruleApplyAll regexMatch xpathHit cs r
  | .notR c, r => ! ruleApply regexMatch xpathHit c r
  | .matchAll, _ => true
  | .domainR d, r =>
    match r.url with
    | none => false
    | some u =>
      if u = "" then false
      else
        match urlHostname u with
        | none => false
        | some h =>
          let hn := pyLower (stripChar '.' h)
          hn = d || strEndsWith hn ("." ++ d)
  | .mimeTypeR n, r => r.contentType == n
  | .mimeGroupR g, r =>
    let ct := r.contentType.getD ""
    strStartsWith ct (g ++ "/") ||
      (match GROUPS.find? (fun kv => kv.1 = g) with
       | some kv => kv.2.contains ct
       | none => false)
  | .patternR p, r =>
    match r.url with
    | none => false
    | some u => if u = "" then false else regexMatch p u
  | .xpathR x, r =>
    match r.text with
    | none => false
    | some t => if t = "" then false else xpathHit x t

/-- Embeds `OrRule.apply`: `any(...)` over the children, short-circuit. -/
def ruleApplyAny (regexMatch : String → String → Bool)
    (xpathHit : String → String → Bool) : RuleList → RResponse → Bool
  | .nil, _ => false
  | .cons c rest, r =>
    ruleApply regexMatch xpathHit c r || ruleApplyAny regexMatch xpathHit rest r

/-- Embeds `AndRule.apply`: `all(...)` over the children, short-circuit. -/
def ruleApplyAll (regexMatch : String → String → Bool)
    (xpathHit : String → String → Bool) : RuleList → RResponse → Bool
  | .nil, _ => true
  | .cons c rest, r =>
    ruleApply regexMatch xpathHit c r && ruleApplyAll regexMatch xpathHit rest r
end

/-- The key set of `RULE_TYPES` in the source. -/
def RULE_TYPES : List String :=
  ["or", "any", "and", "all", "not", "match_all", "domain",
   "mime_type", "mime_group", "pattern", "xpath"]

mutual
/-- Embeds `parse_rule`.  `patternOk p` models whether `re.compile(p)`
succeeds (external engine).  Any failure — non-mapping spec, zero keys
(`len(spec) == 0`), several keys (`len(spec) > 1`, realised as the
two-entry shape, equivalent on dictionaries), unknown rule type, wrong
value shape under `and`/`or`/`not`, or a pydantic validation error of the
leaf classes (non-string scalar, empty domain, uncompilable pattern,
non-mapping truthy `match_all` value) — is a `RuleParsingException`,
modelled as the error case. -/
def parse_rule (patternOk : String → Bool) : PySpec → Except String Rule
  | .pdict entries =>
    match entries with
    | .nil => .error "Empty rule specification"
    | .cons ruleName value rest =>
      match rest with
      | .cons _ _ _ => .error "Ambiguous rules (multiple keys)"
      | .nil =>
        if ¬ RULE_TYPES.contains ruleName then
          .error ("Unknown rule type: " ++ ruleName)
        else if ruleName = "or" || ruleName = "any" then
          match value with
          | .plist items =>
            match parseRuleList patternOk items with
            | .ok children => .ok (Rule.orR children)
            | .error e => .error e
          | _ => .error "rule requires a list"
        else if ruleName = "and" || ruleName = "all" then
          match value with
          | .plist items =>
            match parseRuleList patternOk items with
            | .ok children => .ok (Rule.andR children)
            | .error e => .error e
          | _ => .error "rule requires a list"
        else if ruleName = "not" then
          match value with
          | .pdict child =>
            match parse_rule patternOk (.pdict child) with
            | .ok c => .ok (Rule.notR c)
            | .error e => .error e
          | _ => .error "rule requires a dict"
        else if ruleName = "match_all" then
          match value with
          | .pnone => .ok Rule.matchAll
          | .pstr s =>
            if s = "" then .ok Rule.matchAll else .error "Failed to parse rule"
          | .pdict _ => .ok Rule.matchAll
          | .plist items =>
            match items with
            | .nil => .ok Rule.matchAll
            | .cons _ _ => .error "Failed to parse rule"
        else if ruleName = "domain" then
          match value with
          | .pstr s =>
            match cleanDomain s with
            | .ok d => .ok (Rule.domainR d)
            | .error e => .error e
          | _ => .error "Failed to parse rule"
        else if ruleName = "mime_type" then
          match value with
          | .pstr s => .ok (Rule.mimeTypeR (normalizeMimetype s))
          | _ => .error "Failed to parse rule"
        else if ruleName = "mime_group" then
          match value with
          | .pstr s => .ok (Rule.mimeGroupR s)
          | _ => .error "Failed to parse rule"
        else if ruleName = "pattern" then
          match value with
          | .pstr s =>
            if patternOk s then .ok (Rule.patternR s)
            else .error "Failed to parse rule"
          | _ => .error "Failed to parse rule"
        else if ruleName = "xpath" then
          match value with
          | .pstr s => .ok (Rule.xpathR s)
          | _ => .error "Failed to parse rule"
        else .error ("Unknown rule type: " ++ ruleName)
  | .plist _ => .error "Not a valid rule"
  | .pstr _ => .error "Not a valid rule"
  | .pnone => .error "Not a valid rule"

/-- Parse the children of an `and` / `or` rule, failing on the first bad
child, as the recursive `parse_rule` calls of the source do. -/
def parseRuleList (patternOk : String → Bool) : SpecList → Except String RuleList
  | .nil => .ok .nil
  | .cons s rest =>
    match parse_rule patternOk s with
    | .error e => .error e
    | .ok r =>
      match parseRuleList patternOk rest with
      | .error e => .error e
      | .ok rs => .ok (RuleList.cons r rs)
end

mutual
/-- The validity predicate of the amended claim, transcribing its
conditions: a specification parses without raising exactly when it is a
single-key mapping whose key is a known rule type and whose value has the
right shape (a list of valid child specs under `and`/`or`, a valid
mapping under `not`, a mapping or falsy value under `match_all`, a string
otherwise) and passes the leaf validation (domain non-empty, pattern
compilable).  The key dispatch deliberately follows the same order as
`parse_rule` so the correspondence proof can walk both in lockstep. -/
def specOk (patternOk : String → Bool) : PySpec → Bool
  | .pdict entries =>
    match entries with
    | .nil => false
    | .cons k v rest =>
      match rest with
      | .cons _ _ _ => false
      | .nil =>
        if ¬ RULE_TYPES.contains k then false
        else if k = "or" || k = "any" then
          match v with
          | .plist items => specOkList patternOk items
          | _ => false
        else if k = "and" || k = "all" then
          match v with
          | .plist items => specOkList patternOk items
          | _ => false
        else if k = "not" then
          match v with
          | .pdict child => specOk patternOk (.pdict child)
          | _ => false
        else if k = "match_all" then
          match v with
          | .pnone => true
          | .pstr s => s = ""
          | .pdict _ => true
          | .plist items =>
            match items with
            | .nil => true
            | .cons _ _ => false
        else if k = "domain" then
          match v with
          | .pstr s => s ≠ ""
          | _ => false
        else if k = "mime_type" then
          match v with
          | .pstr _ => true
          | _ => false
        else if k = "mime_group" then
          match v with
          | .pstr _ => true
          | _ => false
        else if k = "pattern" then
          match v with
          | .pstr s => patternOk s
          | _ => false
        else if k = "xpath" then
          match v with
          | .pstr _ => true
          | _ => false
        else false
  | _ => false

/-- Validity of a list of child specifications. -/
def specOkList (patternOk : String → Bool) : SpecList → Bool
  | .nil => true
  | .cons s rest => specOk patternOk s && specOkList patternOk rest
end

/-! ## The HTTP fetch and cache layer (`memorious/logic/http.py`)

`ContextHttpResponse` is a lazily evaluated wrapper; its embedding is an
explicit state record plus a world of externally shared stores (the tag
store carrying cached response metadata, the archive).  The network is a
deterministic `server` function from the request actually sent (method,
URL, merged headers, body) to the wire response.  Rate limiting and
session persistence have no observable effect on the modelled values and
are noted where the source performs them. -/

/-- An outgoing request as the source builds it (`httpx.Request`):
method, URL, headers and optional body content. -/
structure HRequest where
  method : String
  url : String
  headers : List (String × String)
  content : Option String

/-- A wire response (`httpx.Response`): status code, final URL, headers
and body. -/
structure LiveResp where
  status : Int
  url : String
  headers : List (String × String)
  body : String

/-- The mutable fields of a `ContextHttpResponse` (its `__init__`):
an optional request, the underlying response once evaluated, and the
private caches the properties and `apply_data` fill in. -/
structure HttpState where
  request : Option HRequest
  resp : Option LiveResp
  status_ : Option Int
  url_ : Option String
  requestId_ : Option String
  headers_ : Option (List (String × String))
  encoding_ : Option String
  contentHash_ : Option String
  retrievedAt_ : Option String

/-- A fresh `ContextHttpResponse` around an optional request. -/
def initState (rq : Option HRequest) : HttpState :=
  ⟨rq, none, none, none, none, none, none, none, none⟩

/-- The externally shared stores the layer touches: the tag store (cached
response metadata lives there) and the content-addressed archive, as a
list of `(checksum, body)` writes. -/
structure World where
  tags : Tags
  archive : List (String × String)

/-- The static surroundings of a response: the owning context, whether
caching is configured (`ContextHttp.cache`) and the deterministic network.
-/
structure HttpEnv where
  ctx : Context
  cache : Bool
  server : HRequest → LiveResp

/-- Models `hashlib.sha1` as used by `fetch` (external): a deterministic
content digest of the streamed body. -/
def sha1Hex (body : String) : String :=
  "sha1-" ++ body

/-- Embeds the `CACHE_METHODS` class attribute. -/
def CACHE_METHODS : List String := ["GET", "HEAD"]

/-- Embeds the `use_cache` property: caching must be configured, and a
present request must use a cacheable method. -/
def useCache (env : HttpEnv) (st : HttpState) : Bool :=
  if ¬ env.cache then false
  else
    match st.request with
    | some rq => CACHE_METHODS.contains rq.method
    | none => true

/-- Embeds the `request_id` property: the applied value if present,
otherwise the URL key of the request. -/
def requestIdOf (st : HttpState) : Option String :=
  match st.requestId_ with
  | some rid => some rid
  | none =>
    match st.request with
    | some rq =>
      some (make_url_key rq.url rq.method
        (match rq.content with
         | some c => if c = "" then none else some c
         | none => none))
    | none => none

/-- Embeds the `url` property (no lazy trigger in the source): the live
response's URL, else the request's URL, else the applied value. -/
def urlOf (st : HttpState) : Option String :=
  match st.resp with
  | some live => some live.url
  | none =>
    match st.request with
    | some rq => some rq.url
    | none => st.url_

/-- The pure reading of the `status_code` property on an already
evaluated state (the lazy trigger is handled by `statusProp`). -/
def statusOf (st : HttpState) : Option Int :=
  match st.status_ with
  | some s => some s
  | none =>
    match st.resp with
    | some live => some live.status
    | none => none

/-- Embeds the `ok` property: a status below 400. -/
def okOf (st : HttpState) : Bool :=
  match statusOf st with
  | none => false
  | some s => s < 400

/-- The pure reading of the `headers` property on an already evaluated
state: the applied headers, else the live response's headers, else empty. -/
def headersOf (st : HttpState) : List (String × String) :=
  match st.headers_ with
  | some hs => hs
  | none =>
    match st.resp with
    | some live => live.headers
    | none => []

/-- Headers as the serialized dictionary stores them
(`dict(self.headers)`). -/
def headersToPy (hs : List (String × String)) : PyVal :=
  .vdict (hs.map (fun kv => (kv.1, .vstr kv.2)))

/-- Read a headers dictionary value back into header pairs (non-string
values are dropped, as no modelled writer produces them). -/
def pyToHeaders : PyVal → List (String × String)
  | .vdict es => es.filterMap (fun kv =>
      match kv.2 with
      | .vstr s => some (kv.1, s)
      | _ => none)
  | _ => []

/-- Field access on a serialized-metadata dictionary value. -/
def pyGetField (v : PyVal) (k : String) : Option PyVal :=
  match v with
  | .vdict es => dget es k
  | _ => none

/-- Embeds `serialize` without its trailing conditional `modified_at`
entry (`last_modified` is a time-dependent reading that `apply_data`
never consumes, so the entry is unobservable to the modelled behaviour).
Reads the properties of an evaluated state. -/
def serializeDict (st : HttpState) : PyVal :=
  .vdict
    [ ("request_id", optStrPy (requestIdOf st))
    , ("status_code",
        match statusOf st with
        | some s => .vint s
        | none => .vnone)
    , ("url", optStrPy (urlOf st))
    , ("content_hash", optStrPy st.contentHash_)
    , ("encoding", optStrPy st.encoding_)
    , ("headers", headersToPy (headersOf st))
    , ("retrieved_at", optStrPy st.retrievedAt_) ]

/-- Read an optional integer field of a metadata dictionary. -/
def pyFieldInt (d : PyVal) (k : String) : Option Int :=
  match pyGetField d k with
  | some (.vint n) => some n
  | _ => none

/-- Read an optional string field of a metadata dictionary. -/
def pyFieldStr (d : PyVal) (k : String) : Option String :=
  match pyGetField d k with
  | some (.vstr s) => some s
  | _ => none

/-- Embeds `apply_data`: restore the private fields from a serialized
metadata dictionary; header keys are lowercased. -/
def applyData (st : HttpState) (d : PyVal) : HttpState :=
  { st with
    status_ := pyFieldInt d "status_code"
    url_ := pyFieldStr d "url"
    requestId_ := pyFieldStr d "request_id"
    encoding_ := pyFieldStr d "encoding"
    contentHash_ := pyFieldStr d "content_hash"
    retrievedAt_ := pyFieldStr d "retrieved_at"
    headers_ := some ((pyToHeaders ((pyGetField d "headers").getD (.vdict []))).map
      (fun kv => (pyLower kv.1, kv.2))) }

/-- Embeds `deserialize`: a fresh wrapper (no request, no live response)
with the serialized data applied. -/
def deserializeOp (d : PyVal) : HttpState :=
  applyData (initState none) d

/-- Update request headers with extra entries (`dict.update`): replace
existing keys, append new ones. -/
def headersUpdate (hs extra : List (String × String)) : List (String × String) :=
  extra.foldl (fun acc kv =>
    if acc.any (fun kv2 => kv2.1 = kv.1) then
      acc.map (fun kv2 => if kv2.1 = kv.1 then kv else kv2)
    else acc ++ [kv]) hs

/-- Embeds the `response` property: when unevaluated and a request is
present, load cached metadata for the request fingerprint (cacheable
requests only), attach the conditional `If-Modified-Since` /
`If-None-Match` headers from it, enforce the rate limit (no modelled
effect), send, and either reuse the cached metadata wholesale on a
`304` or keep the live response; the session is saved afterwards (no
modelled effect). -/
def triggerResponse (env : HttpEnv) (st : HttpState) (w : World) : HttpState :=
  match st.resp, st.request with
  | none, some rq =>
    let existing : Option PyVal :=
      if useCache env st then
        match requestIdOf st with
        | some rid => if rid = "" then none else env.ctx.get_tag w.tags rid
        | none => none
      else none
    let exHeaders :=
      match existing with
      | some meta => pyToHeaders ((pyGetField meta "headers").getD (.vdict []))
      | none => []
    let extra :=
      (match exHeaders.find? (fun kv => kv.1 = "last-modified") with
       | some kv => if kv.2 ≠ "" then [("If-Modified-Since", kv.2)] else []
       | none => []) ++
      (match exHeaders.find? (fun kv => kv.1 = "etag") with
       | some kv => if kv.2 ≠ "" then [("If-None-Match", kv.2)] else []
       | none => [])
    let sent : HRequest :=
      { rq with headers := headersUpdate rq.headers extra }
    let live := env.server sent
    match existing with
    | some meta =>
      if live.status = 304 then applyData st meta
      else { st with resp := some live }
    | none => { st with resp := some live }
  | _, _ => st

/-- Embeds `fetch`: memoized on `content_hash`; triggers evaluation; a
still-absent underlying response yields nothing; otherwise stream and
hash the body, write it to the archive, cache the serialized metadata
under the request fingerprint for successful cacheable responses, and
record the retrieval time (`now`). -/
def doFetch (env : HttpEnv) (st : HttpState) (w : World) (now : String) :
    Option String × HttpState × World :=
  if st.contentHash_.isSome then (st.contentHash_, st, w)
  else
    let st1 := triggerResponse env st w
    match st1.resp with
    | none => (none, st1, w)
    | some live =>
      let h := sha1Hex live.body
      let st2 := { st1 with contentHash_ := some h }
      let w2 := { w with archive := (h, live.body) :: w.archive }
      let w3 :=
        if env.cache && okOf st2 then
          match requestIdOf st2 with
          | some rid =>
            if rid = "" then w2
            else { w2 with tags := env.ctx.set_tag w2.tags rid (serializeDict st2) }
          | none => w2
        else w2
      let st3 := { st2 with retrievedAt_ := some now }
      (some h, st3, w3)

/-- The `status_code` property with its lazy trigger: an absent cached
status evaluates the response; a live response fills the cache, a `304`
reuse leaves whatever `apply_data` restored. -/
def statusProp (env : HttpEnv) (st : HttpState) (w : World) :
    Option Int × HttpState :=
  match st.status_ with
  | some s => (some s, st)
  | none =>
    let st1 := triggerResponse env st w
    match st1.resp with
    | some live => (some live.status, { st1 with status_ := some live.status })
    | none => (st1.status_, st1)

/-- The `content_hash` property with its lazy trigger: fetch when the
hash is not yet known. -/
def hashProp (env : HttpEnv) (st : HttpState) (w : World) (now : String) :
    Option String × HttpState × World :=
  match st.contentHash_ with
  | some h => (some h, st, w)
  | none =>
    let (_, st1, w1) := doFetch env st w now
    (st1.contentHash_, st1, w1)

/-- Embeds `serialize` as an operation: fetch, then build the metadata
dictionary from the resulting state. -/
def serializeOp (env : HttpEnv) (st : HttpState) (w : World) (now : String) :
    PyVal × HttpState × World :=
  let (_, st1, w1) := doFetch env st w now
  (serializeDict st1, st1, w1)



/-! ## Helper lemmas on strings and key construction -/

/-- Characters different from the stripped one survive `dropWhile`. -/
theorem mem_dropWhile_of_ne {c r : Char} :
    ∀ {l : List Char}, c ∈ l → c ≠ r → c ∈ l.dropWhile (fun x => x = r) := by
  intro l hc hne
  induction l with
  | nil => cases hc
  | cons a t ih =>
    rw [List.dropWhile_cons]
    by_cases ha : a = r
    · subst ha
      rw [if_pos (by simp)]
      rcases List.mem_cons.mp hc with h | h
      · exact absurd h hne
      · exact ih h
    · rw [if_neg (by simp [ha])]
      exact hc

/-- Characters different from the stripped one survive `stripCharL`. -/
theorem mem_stripCharL {c r : Char} {l : List Char} (hc : c ∈ l) (hne : c ≠ r) :
    c ∈ stripCharL r l := by
  unfold stripCharL
  rw [List.mem_reverse]
  exact mem_dropWhile_of_ne (List.mem_reverse.mpr (mem_dropWhile_of_ne hc hne)) hne

/-- Characters different from the stripped one survive `stripChar`. -/
theorem mem_stripChar {c r : Char} {s : String} (hc : c ∈ s.data) (hne : c ≠ r) :
    c ∈ (stripChar r s).data :=
  mem_stripCharL hc hne

/-- String concatenation concatenates the character data. -/
theorem data_append (a b : String) : (a ++ b).data = a.data ++ b.data := rfl

/-- Characters of a member string appear in the joined string. -/
theorem mem_joinSep {c : Char} {sep : String} :
    ∀ {parts : List String} {s : String}, s ∈ parts → c ∈ s.data →
      c ∈ (joinSep sep parts).data := by
  intro parts
  induction parts with
  | nil => intro s hs; cases hs
  | cons a rest ih =>
    intro s hs hc
    cases rest with
    | nil =>
      rcases List.mem_cons.mp hs with h | h
      · subst h; simpa [joinSep] using hc
      · cases h
    | cons b t =>
      show c ∈ (a ++ sep ++ joinSep sep (b :: t)).data
      rw [data_append, data_append]
      rcases List.mem_cons.mp hs with h | h
      · subst h
        exact List.mem_append_left _ (List.mem_append_left _ hc)
      · exact List.mem_append_right _ (ih h hc)

/-- A part with surviving characters makes `joinRelpaths` succeed. -/
theorem joinRelpaths_isSome {parts : List String} {p : String} {c : Char}
    (hp : p ∈ parts) (hc : c ∈ (stripChar '/' p).data) :
    ∃ s, joinRelpaths parts = some s := by
  have hne : stripChar '/' p ≠ "" := by
    intro he
    rw [he] at hc
    cases hc
  have hmem : stripChar '/' p ∈ (parts.map (stripChar '/')).filter (fun x => x ≠ "") := by
    refine List.mem_filter.mpr ⟨List.mem_map_of_mem _ hp, ?_⟩
    simpa using hne
  have hnonempty : ((parts.map (stripChar '/')).filter (fun x => x ≠ "")).isEmpty = false := by
    have hnn := List.ne_nil_of_mem hmem
    exact Bool.eq_false_iff.mpr (fun hemp => hnn (List.isEmpty_iff.mp hemp))
  refine ⟨joinSep "/" ((parts.map (stripChar '/')).filter (fun x => x ≠ "")), ?_⟩
  simp [joinRelpaths, hnonempty]
  exact ⟨p, hp, hne⟩

/-- Characters surviving stripping of a member part appear in the joined
relative path. -/
theorem joinRelpaths_mem {parts : List String} {p s : String} {c : Char}
    (h : joinRelpaths parts = some s) (hp : p ∈ parts)
    (hc : c ∈ (stripChar '/' p).data) : c ∈ s.data := by
  have hne : stripChar '/' p ≠ "" := by
    intro he
    rw [he] at hc
    cases hc
  have hmem : stripChar '/' p ∈ (parts.map (stripChar '/')).filter (fun x => x ≠ "") := by
    refine List.mem_filter.mpr ⟨List.mem_map_of_mem _ hp, ?_⟩
    simpa using hne
  simp only [joinRelpaths] at h
  split at h
  · cases h
  · cases h
    exact mem_joinSep hmem hc

/-- `dropWhile` is the identity when no character matches. -/
theorem dropWhile_eq_self_of {l : List Char} {r : Char}
    (h : ∀ x ∈ l, ¬ x = r) : l.dropWhile (fun x => x = r) = l := by
  cases l with
  | nil => rfl
  | cons a t =>
    rw [List.dropWhile_cons]
    simp [h a (List.mem_cons_self a t)]

/-- Stripping a character that does not occur is the identity. -/
theorem stripChar_eq_self {s : String} {r : Char}
    (h : ∀ x ∈ s.data, ¬ x = r) : stripChar r s = s := by
  unfold stripChar stripCharL
  rw [dropWhile_eq_self_of h]
  rw [dropWhile_eq_self_of (fun x hx => h x (List.mem_reverse.mp hx))]
  rw [List.reverse_reverse]

/-- A valid crawler name is non-empty. -/
theorem validName_ne_empty {s : String} (h : validName s = true) : s ≠ "" := by
  unfold validName at h
  rcases Bool.and_eq_true_iff.mp h with ⟨h1, -⟩
  simpa using h1

/-- A valid crawler name contains no slash. -/
theorem validName_no_slash {s : String} (h : validName s = true) :
    ∀ x ∈ s.data, ¬ x = '/' := by
  unfold validName at h
  rcases Bool.and_eq_true_iff.mp h with ⟨-, h2⟩
  intro x hx heq
  subst heq
  have := List.all_eq_true.mp h2 _ hx
  simp at this

/-- Stripping slashes off a valid crawler name is the identity. -/
theorem stripChar_validName {s : String} (h : validName s = true) :
    stripChar '/' s = s :=
  stripChar_eq_self (validName_no_slash h)

/-- Every key `skip_incremental` derives contains the letter `i` of its
`inc` prefix. -/
theorem make_key_inc_mem {ctx : Context} {criteria : List String} {key : String}
    (h : ctx.make_key criteria (some "inc") = some key) : 'i' ∈ key.data := by
  unfold Context.make_key at h
  cases hj : joinRelpaths criteria with
  | none => rw [hj] at h; cases h
  | some k0 =>
    rw [hj] at h
    simp only [show ("inc" : String) = "" ↔ False by simp, if_false, if_neg] at h
    obtain ⟨s2, hs2⟩ :=
      joinRelpaths_isSome (c := 'i')
        (show "inc" ∈ ["inc",
          if strStartsWith k0 ctx.crawlerName then strDrop k0 (ctx.crawlerName.length + 1)
          else k0] from List.mem_cons_self _ _) (by decide)
    rw [hs2] at h
    have hi2 : 'i' ∈ s2.data :=
      joinRelpaths_mem hs2 (List.mem_cons_self _ _) (by decide)
    exact joinRelpaths_mem h (List.mem_cons_of_mem _ (List.mem_cons_self _ _))
      (mem_stripChar hi2 (by decide))

/-- For a valid crawler name, namespacing a key that contains a non-slash
character always produces a key. -/
theorem make_key_single_some {ctx : Context} {key : String}
    (hname : validName ctx.crawlerName = true) (hi : 'i' ∈ key.data) :
    ∃ k, ctx.make_key [key] none = some k := by
  unfold Context.make_key
  obtain ⟨s0, hs0⟩ :=
    joinRelpaths_isSome (c := 'i')
      (show key ∈ [key] from List.mem_cons_self _ _)
      (mem_stripChar hi (by decide))
  rw [hs0]
  dsimp only
  obtain ⟨cn, hcn⟩ : ∃ c, c ∈ ctx.crawlerName.data := by
    have hne := validName_ne_empty hname
    cases hd : ctx.crawlerName.data with
    | nil =>
      exfalso
      apply hne
      cases hh : ctx.crawlerName
      cases hh ▸ hd
      rfl
    | cons a t => exact ⟨a, hd ▸ List.mem_cons_self a t⟩
  refine joinRelpaths_isSome (c := cn) (List.mem_cons_self _ _) ?_
  rw [stripChar_validName hname]
  exact hcn

/-! ## Claims about the tag helpers and the dedup engine -/

/-- C10: for every key that is empty or consists only of whitespace, the
tag helpers are total no-ops at the public interface: `set_tag` writes
nothing and leaves the tag store unchanged, `get_tag` returns `None`,
`check_tag` returns `False`, and none of them raises. -/
theorem tag_helpers_whitespace_noop (ctx : Context) (tags : Tags) (key : String)
    (v : PyVal) (h : allSpace key = true) :
    ctx.set_tag tags key v = tags ∧
    ctx.get_tag tags key = none ∧
    ctx.check_tag tags key = false := by
  refine ⟨?_, ?_, ?_⟩ <;>
    simp [Context.set_tag, Context.get_tag, Context.check_tag, h]

/-- Witness for C10 at the whitespace key `" "`. -/
theorem tag_helpers_whitespace_noop_witness :
    allSpace " " = true ∧
    ((⟨"crawl", [], [], "run", none, none, false, none⟩ : Context).set_tag []
        " " PyVal.vnone = [] ∧
      (⟨"crawl", [], [], "run", none, none, false, none⟩ : Context).get_tag []
        " " = none ∧
      (⟨"crawl", [], [], "run", none, none, false, none⟩ : Context).check_tag []
        " " = false) :=
  ⟨by decide,
    tag_helpers_whitespace_noop ⟨"crawl", [], [], "run", none, none, false, none⟩
      [] " " PyVal.vnone (by decide)⟩

/-- C3: with the incremental flag set, `skip_incremental` returns `False`
on the first call for a criteria key and writes the tag, and `True` (with
the store unchanged) on every call against a store that carries the tag;
with the incremental flag unset it always returns `False` and writes no
tag.  The crawler name is valid by construction (`validate_name`). -/
theorem skip_incremental_spec (ctx ctxOff : Context) (tags tagged tagsOff : Tags)
    (criteria criteriaOff : List String) (key : String)
    (hname : validName ctx.crawlerName = true)
    (hinc : optTruthy ctx.incremental = true)
    (hk : ctx.make_key criteria (some "inc") = some key)
    (hfresh : ctx.check_tag tags key = false)
    (htagged : ctx.check_tag tagged key = true)
    (hoff : optTruthy ctxOff.incremental = false) :
    (ctx.skip_incremental tags criteria).1 = false ∧
    ctx.check_tag (ctx.skip_incremental tags criteria).2 key = true ∧
    ctx.skip_incremental tagged criteria = (true, tagged) ∧
    ctxOff.skip_incremental tagsOff criteriaOff = (false, tagsOff) := by
  have hspace : allSpace key = false := by
    have hi := make_key_inc_mem hk
    refine Bool.eq_false_iff.mpr (fun hall => ?_)
    have := List.all_eq_true.mp hall _ hi
    simp [pyIsSpace] at this
  obtain ⟨k', hk'⟩ := make_key_single_some hname (make_key_inc_mem hk)
  refine ⟨?_, ?_, ?_, ?_⟩
  · simp [Context.skip_incremental, hinc, hk, hfresh]
  · have h1 : ctx.skip_incremental tags criteria =
        (false, ctx.set_tag tags key (PyVal.vstr "inc")) := by
      simp [Context.skip_incremental, hinc, hk, hfresh]
    rw [h1]
    simp [Context.set_tag, Context.check_tag, hspace, hk', tagsPut, tagsExists]
  · simp [Context.skip_incremental, hinc, hk, htagged]
  · simp [Context.skip_incremental, hoff]

/-- Witness for C3: crawler `crawl`, criteria `["k"]`, fresh store. -/
theorem skip_incremental_spec_witness :
    validName "crawl" = true ∧
    optTruthy (some true) = true ∧
    (⟨"crawl", [], [], "run", some true, none, false, none⟩ : Context).make_key
        ["k"] (some "inc") = some "crawl/inc/k" ∧
    (⟨"crawl", [], [], "run", some true, none, false, none⟩ : Context).check_tag
        [] "crawl/inc/k" = false ∧
    (⟨"crawl", [], [], "run", some true, none, false, none⟩ : Context).check_tag
        [("crawl/inc/k", PyVal.vstr "inc")] "crawl/inc/k" = true ∧
    optTruthy (none : Option Bool) = false ∧
    (((⟨"crawl", [], [], "run", some true, none, false, none⟩ : Context).skip_incremental
          [] ["k"]).1 = false ∧
      (⟨"crawl", [], [], "run", some true, none, false, none⟩ : Context).check_tag
        ((⟨"crawl", [], [], "run", some true, none, false, none⟩ : Context).skip_incremental
          [] ["k"]).2 "crawl/inc/k" = true ∧
      (⟨"crawl", [], [], "run", some true, none, false, none⟩ : Context).skip_incremental
        [("crawl/inc/k", PyVal.vstr "inc")] ["k"] =
        (true, [("crawl/inc/k", PyVal.vstr "inc")]) ∧
      (⟨"crawl", [], [], "run", none, none, false, none⟩ : Context).skip_incremental
        [] [] = (false, [])) :=
  ⟨by decide, by decide, by decide, by decide, by decide, by decide,
    skip_incremental_spec
      ⟨"crawl", [], [], "run", some true, none, false, none⟩
      ⟨"crawl", [], [], "run", none, none, false, none⟩
      [] [("crawl/inc/k", PyVal.vstr "inc")] [] ["k"] [] "crawl/inc/k"
      (by decide) (by decide) (by decide) (by decide) (by decide) (by decide)⟩

/-! ## Claims about the emit protocol -/

/-- C2: an `emit` whose rule label is not in the current stage's handler
table (and no explicit stage is given), or whose resolved stage is not a
key of the crawler's stage mapping, is a no-op: it raises nothing,
enqueues no job and leaves the caller's data untouched, regardless of the
`optional` flag. -/
theorem emit_unresolved_noop (ctx : Context) (tags : Tags) (randAbove : Bool)
    (rule : String) (stageArg : Option String) (dataArg : Option Data)
    (delay : Option Int) (optional : Bool)
    (h : ctx.resolveStage rule stageArg = none ∨
      ∀ s, ctx.resolveStage rule stageArg = some s → ctx.stages.contains s = false) :
    (ctx.emit tags randAbove rule stageArg dataArg delay optional).deferred = [] ∧
    (ctx.emit tags randAbove rule stageArg dataArg delay optional).callerData =
      dataArg.getD [] := by
  rcases h with h | h
  · cases optional <;> simp [Context.emit, h]
  · cases hs : ctx.resolveStage rule stageArg with
    | none => cases optional <;> simp [Context.emit, hs]
    | some s =>
      have hc : ¬ (s ∈ ctx.stages) := by simpa using h s hs
      cases optional <;> simp [Context.emit, hs, hc]

/-- Witness for C2: the label `unknown` is not configured on a stage whose
handler table only routes `pass`. -/
theorem emit_unresolved_noop_witness :
    (⟨"crawl", ["fetch"], [("pass", "fetch")], "run", some true, none, false,
        none⟩ : Context).resolveStage "unknown" none = none ∧
    (((⟨"crawl", ["fetch"], [("pass", "fetch")], "run", some true, none, false,
          none⟩ : Context).emit [] false "unknown" none
        (some [("url", PyVal.vstr "http://x/")]) none false).deferred = [] ∧
      ((⟨"crawl", ["fetch"], [("pass", "fetch")], "run", some true, none, false,
          none⟩ : Context).emit [] false "unknown" none
        (some [("url", PyVal.vstr "http://x/")]) none false).callerData =
        (some [("url", PyVal.vstr "http://x/")]).getD []) :=
  ⟨by decide,
    emit_unresolved_noop
      ⟨"crawl", ["fetch"], [("pass", "fetch")], "run", some true, none, false, none⟩
      [] false "unknown" none (some [("url", PyVal.vstr "http://x/")]) none false
      (Or.inl (by decide))⟩

/-- C4 counterexample: an `emit` that does hand a job to the dispatcher
(one deferred call) can return with the caller's dictionary changed: with
the incremental flag set and a non-empty data dict (which `data = data or
{}` leaves aliased to the local `data`), the caller's dict gains the
`_emit_cache_key` entry, because the source stashes the cache key into
`data` before the deep copy. -/
theorem emit_mutates_caller_counterexample :
    ((⟨"crawl", ["fetch"], [("pass", "fetch")], "run", some true, none, false,
        none⟩ : Context).emit [] false "pass" none
      (some [("k", PyVal.vstr "v")]) none false).deferred.length = 1 ∧
    ((⟨"crawl", ["fetch"], [("pass", "fetch")], "run", some true, none, false,
        none⟩ : Context).emit [] false "pass" none
      (some [("k", PyVal.vstr "v")]) none false).callerData =
      [("k", PyVal.vstr "v"), ("_emit_cache_key", PyVal.vnone)] ∧
    [("k", PyVal.vstr "v"), ("_emit_cache_key", PyVal.vnone)] ≠
      [("k", PyVal.vstr "v")] := by
  refine ⟨rfl, rfl, ?_⟩
  intro h
  exact absurd (congrArg List.length h) (by decide)

/-- Case analysis on `emit`: either nothing is deferred, or the deferred
payload is the incoming data with the `_emit_cache_key` entry stashed
when incremental, and the caller's dictionary is that payload when it was
non-empty (aliased through `data = data or {}`) and the value handed in
otherwise. -/
theorem emit_cases (ctx : Context) (tags : Tags) (randAbove : Bool)
    (rule : String) (stageArg : Option String) (dataArg : Option Data)
    (delay : Option Int) (optional : Bool) :
    (ctx.emit tags randAbove rule stageArg dataArg delay optional).deferred = [] ∨
    ((ctx.emit tags randAbove rule stageArg dataArg delay optional).callerData =
      (if (dataArg.getD []).isEmpty then dataArg.getD []
       else if optTruthy ctx.incremental then
        dinsert (dataArg.getD []) "_emit_cache_key"
          (optStrPy (ctx.makeEmitCacheKey (dataArg.getD [])))
       else dataArg.getD []) ∧
    ∀ dc ∈ (ctx.emit tags randAbove rule stageArg dataArg delay optional).deferred,
      dc.data =
        (if optTruthy ctx.incremental then
          dinsert (dataArg.getD []) "_emit_cache_key"
            (optStrPy (ctx.makeEmitCacheKey (dataArg.getD [])))
        else dataArg.getD [])) := by
  unfold Context.emit
  cases hs : ctx.resolveStage rule stageArg with
  | none => cases optional <;> simp [hs]
  | some s =>
    cases hst : ctx.stages.contains s with
    | false =>
      have hst2 : ¬ (s ∈ ctx.stages) := by simpa using hst
      cases optional <;> simp [hs, hst2]
    | true =>
      have hst2 : s ∈ ctx.stages := by simpa using hst
      cases hhit : (optTruthy ctx.incremental && ctx.emitCacheHit tags (dataArg.getD [])) with
      | true => cases optional <;> simp [hs, hst2, hhit]
      | false =>
        cases hsam : ctx.emitSampledOut randAbove with
        | true => cases optional <;> simp [hs, hst2, hhit, hsam]
        | false => cases optional <;> simp [hs, hst2, hhit, hsam]

/-- C4 as amended: when `emit` hands a job to the dispatcher, the caller's
dictionary is unchanged if the context's incremental flag is falsy or the
dictionary handed in was empty or absent (`data = data or {}` rebinds a
falsy value to a fresh dictionary); when the flag is truthy and the
handed-in dictionary non-empty, the caller's dictionary is changed
exactly by the `_emit_cache_key` entry (stashed before the deep copy).
The dispatched payload always carries the stash when incremental. -/
theorem emit_caller_data (ctx : Context) (tags : Tags) (randAbove : Bool)
    (rule : String) (stageArg : Option String) (dataArg : Option Data)
    (delay : Option Int) (optional : Bool)
    (h : (ctx.emit tags randAbove rule stageArg dataArg delay optional).deferred ≠ []) :
    (ctx.emit tags randAbove rule stageArg dataArg delay optional).callerData =
      (if (dataArg.getD []).isEmpty then dataArg.getD []
       else if optTruthy ctx.incremental then
        dinsert (dataArg.getD []) "_emit_cache_key"
          (optStrPy (ctx.makeEmitCacheKey (dataArg.getD [])))
       else dataArg.getD []) ∧
    ∀ dc ∈ (ctx.emit tags randAbove rule stageArg dataArg delay optional).deferred,
      dc.data =
        (if optTruthy ctx.incremental then
          dinsert (dataArg.getD []) "_emit_cache_key"
            (optStrPy (ctx.makeEmitCacheKey (dataArg.getD [])))
        else dataArg.getD []) := by
  rcases emit_cases ctx tags randAbove rule stageArg dataArg delay optional with
    hd | hgood
  · exact absurd hd h
  · exact hgood

/-- Witness for C4 as amended: an incremental context handed a non-empty
dictionary defers, the caller's dictionary gains the stashed
`_emit_cache_key` entry and the payload carries it too. -/
theorem emit_caller_data_witness :
    ((⟨"crawl", ["fetch"], [("pass", "fetch")], "run", some true, none, false,
        none⟩ : Context).emit [] false "pass" none (some [("k", PyVal.vint 1)])
      none false).deferred ≠ [] ∧
    (((⟨"crawl", ["fetch"], [("pass", "fetch")], "run", some true, none, false,
          none⟩ : Context).emit [] false "pass" none (some [("k", PyVal.vint 1)])
        none false).callerData =
      (if ((some [("k", PyVal.vint 1)] : Option Data).getD []).isEmpty then
        (some [("k", PyVal.vint 1)] : Option Data).getD []
       else if optTruthy (⟨"crawl", ["fetch"], [("pass", "fetch")], "run",
            some true, none, false, none⟩ : Context).incremental then
        dinsert ((some [("k", PyVal.vint 1)]).getD []) "_emit_cache_key"
          (optStrPy ((⟨"crawl", ["fetch"], [("pass", "fetch")], "run", some true,
              none, false, none⟩ : Context).makeEmitCacheKey
            ((some [("k", PyVal.vint 1)]).getD [])))
       else (some [("k", PyVal.vint 1)]).getD []) ∧
      ∀ dc ∈ ((⟨"crawl", ["fetch"], [("pass", "fetch")], "run", some true, none,
          false, none⟩ : Context).emit [] false "pass" none
        (some [("k", PyVal.vint 1)]) none false).deferred,
        dc.data =
          (if optTruthy (⟨"crawl", ["fetch"], [("pass", "fetch")], "run",
              some true, none, false, none⟩ : Context).incremental then
            dinsert ((some [("k", PyVal.vint 1)]).getD []) "_emit_cache_key"
              (optStrPy ((⟨"crawl", ["fetch"], [("pass", "fetch")], "run",
                  some true, none, false, none⟩ : Context).makeEmitCacheKey
                ((some [("k", PyVal.vint 1)]).getD [])))
          else (some [("k", PyVal.vint 1)]).getD [])) :=
  ⟨(by intro h; cases h),
    emit_caller_data
      ⟨"crawl", ["fetch"], [("pass", "fetch")], "run", some true, none, false, none⟩
      [] false "pass" none (some [("k", PyVal.vint 1)]) none false
      (by intro h; cases h)⟩

/-- C9: evaluating `emit` at a context whose incremental flag is
explicitly `False` shows the dispatched job carries `incremental = True`:
the source defers with `incremental=self.incremental or True`, a
constant-true expression, so the context's flag does not cross the queue
boundary (the sibling `continue_on_error or False` does pass its flag
through). -/
theorem emit_incremental_flag_forced_true :
    ((⟨"crawl", ["fetch"], [("pass", "fetch")], "run", some false, some false,
        false, none⟩ : Context).emit [] false "pass" none (some []) none
      false).deferred.map (fun dc => dc.incremental) = [true] ∧
    (⟨"crawl", ["fetch"], [("pass", "fetch")], "run", some false, some false,
        false, none⟩ : Context).incremental = some false := by
  exact ⟨rfl, rfl⟩

/-! ## Claims about the sequence initializer -/

/-- C1 counterexample: with `start=7, stop=1, step=-3` the `sequence`
operation emits exactly the numbers `[7, 4]` — two emissions, and `1` is
never emitted (the loop breaks once the next number reaches the stop
bound, before emitting it), so the claimed emitted set of three numbers
including `1` is wrong. -/
theorem sequence_negative_counterexample :
    (sequenceRun ⟨"crawl", ["next"], [("pass", "next")], "run", none, none,
        false, none⟩ { start := 7, stop := 1, step := -3 } 100 100 none []).1 =
      [7, 4] ∧
    ¬ (1 ∈ (sequenceRun ⟨"crawl", ["next"], [("pass", "next")], "run", none,
        none, false, none⟩ { start := 7, stop := 1, step := -3 } 100 100 none
        []).1) := by
  refine ⟨rfl, ?_⟩
  decide

/-- C1 as amended: `start=2, stop=11, step=3` emits exactly `[2, 5, 8]`
(three emissions) and `start=7, stop=1, step=-3` emits exactly `[7, 4]`
(two emissions; the stop bound is excluded, as with Python's `range`),
with immediate mode (no delay) and recursive mode (delay set) producing
the same emitted numbers and counts for both configurations. -/
theorem sequence_emissions :
    (sequenceRun ⟨"crawl", ["next"], [("pass", "next")], "run", none, none,
        false, none⟩ { start := 2, stop := 11, step := 3 } 100 100 none []).1 =
      [2, 5, 8] ∧
    (sequenceRun ⟨"crawl", ["next"], [("pass", "next")], "run", none, none,
        false, none⟩ { start := 2, stop := 11, step := 3, delay := some 5 } 100
        100 none []).1 = [2, 5, 8] ∧
    (sequenceRun ⟨"crawl", ["next"], [("pass", "next")], "run", none, none,
        false, none⟩ { start := 7, stop := 1, step := -3 } 100 100 none []).1 =
      [7, 4] ∧
    (sequenceRun ⟨"crawl", ["next"], [("pass", "next")], "run", none, none,
        false, none⟩ { start := 7, stop := 1, step := -3, delay := some 5 } 100
        100 none []).1 = [7, 4] := by
  exact ⟨rfl, rfl, rfl, rfl⟩

/-! ## Claims about the rule engine -/

/-- C8: De Morgan's law holds under the rule engine's evaluation: for
every pair of rules and every response, `not(A or B)` and
`(not A) and (not B)` agree, whatever the external matching engines do. -/
theorem rule_de_morgan (regexMatch xpathHit : String → String → Bool)
    (A B : Rule) (r : RResponse) :
    ruleApply regexMatch xpathHit
      (Rule.notR (Rule.orR (RuleList.cons A (RuleList.cons B RuleList.nil)))) r =
    ruleApply regexMatch xpathHit
      (Rule.andR (RuleList.cons (Rule.notR A)
        (RuleList.cons (Rule.notR B) RuleList.nil))) r := by
  show (!(ruleApply regexMatch xpathHit A r ||
      (ruleApply regexMatch xpathHit B r || false))) =
    ((!ruleApply regexMatch xpathHit A r) &&
      ((!ruleApply regexMatch xpathHit B r) && true))
  cases ruleApply regexMatch xpathHit A r <;>
    cases ruleApply regexMatch xpathHit B r <;> rfl

/-- C7 counterexample: the spec `domain: ""` is a mapping with exactly one
key, the key is a known rule type and the value is a scalar (a string), so
by the claim it should parse without raising; `parse_rule` raises on it
(the domain validator rejects the empty value inside the generic
exception wrapper). -/
theorem parse_rule_domain_empty_counterexample :
    (parse_rule (fun _ => true)
        (PySpec.pdict (SpecEntries.cons "domain" (PySpec.pstr "")
          SpecEntries.nil))).isOk = false ∧
    (SpecEntries.cons "domain" (PySpec.pstr "") SpecEntries.nil).length = 1 ∧
    RULE_TYPES.contains "domain" = true := by
  exact ⟨rfl, rfl, rfl⟩


set_option maxHeartbeats 1600000

mutual
theorem parse_rule_ok_iff (patternOk : String → Bool) :
    (spec : PySpec) → (parse_rule patternOk spec).isOk = specOk patternOk spec
  | .pstr _ => rfl
  | .pnone => rfl
  | .plist _ => rfl
  | .pdict .nil => rfl
  | .pdict (.cons _ _ (.cons _ _ _)) => rfl
  | .pdict (.cons k v .nil) => by
    cases v with
    | pdict es =>
      show (if ¬ RULE_TYPES.contains k then
            (Except.error ("Unknown rule type: " ++ k) : Except String Rule)
          else if k = "or" || k = "any" then
            .error "rule requires a list"
          else if k = "and" || k = "all" then
            .error "rule requires a list"
          else if k = "not" then
            match parse_rule patternOk (.pdict es) with
            | .ok c => .ok (Rule.notR c)
            | .error e => .error e
          else if k = "match_all" then
            .ok Rule.matchAll
          else if k = "domain" then
            .error "Failed to parse rule"
          else if k = "mime_type" then
            .error "Failed to parse rule"
          else if k = "mime_group" then
            .error "Failed to parse rule"
          else if k = "pattern" then
            .error "Failed to parse rule"
          else if k = "xpath" then
            .error "Failed to parse rule"
          else .error ("Unknown rule type: " ++ k)).isOk =
        (if ¬ RULE_TYPES.contains k then false
          else if k = "or" || k = "any" then
            false
          else if k = "and" || k = "all" then
            false
          else if k = "not" then
            specOk patternOk (.pdict es)
          else if k = "match_all" then
            true
          else if k = "domain" then
            false
          else if k = "mime_type" then
            false
          else if k = "mime_group" then
            false
          else if k = "pattern" then
            false
          else if k = "xpath" then
            false
          else false)
      split_ifs <;>
        first
        | rfl
        | (rw [← parseRuleList_ok_iff patternOk items]
           cases parseRuleList patternOk items <;> rfl)
        | (rw [← parse_rule_ok_iff patternOk (.pdict es)]
           cases parse_rule patternOk (.pdict es) <;> rfl)
        | (cases items <;> rfl)
        | (by_cases hs : s = "" <;>
            simp_all [cleanDomain, Except.isOk, Except.toBool])
        | simp_all [Except.isOk, Except.toBool]
    | plist items =>
      show (if ¬ RULE_TYPES.contains k then
            (Except.error ("Unknown rule type: " ++ k) : Except String Rule)
          else if k = "or" || k = "any" then
            match parseRuleList patternOk items with
            | .ok children => .ok (Rule.orR children)
            | .error e => .error e
          else if k = "and" || k = "all" then
            match parseRuleList patternOk items with
            | .ok children => .ok (Rule.andR children)
            | .error e => .error e
          else if k = "not" then
            .error "rule requires a dict"
          else if k = "match_all" then
            match items with
            | .nil => .ok Rule.matchAll
            | .cons _ _ => .error "Failed to parse rule"
          else if k = "domain" then
            .error "Failed to parse rule"
          else if k = "mime_type" then
            .error "Failed to parse rule"
          else if k = "mime_group" then
            .error "Failed to parse rule"
          else if k = "pattern" then
            .error "Failed to parse rule"
          else if k = "xpath" then
            .error "Failed to parse rule"
          else .error ("Unknown rule type: " ++ k)).isOk =
        (if ¬ RULE_TYPES.contains k then false
          else if k = "or" || k = "any" then
            specOkList patternOk items
          else if k = "and" || k = "all" then
            specOkList patternOk items
          else if k = "not" then
            false
          else if k = "match_all" then
            match items with
            | .nil => true
            | .cons _ _ => false
          else if k = "domain" then
            false
          else if k = "mime_type" then
            false
          else if k = "mime_group" then
            false
          else if k = "pattern" then
            false
          else if k = "xpath" then
            false
          else false)
      split_ifs <;>
        first
        | rfl
        | (rw [← parseRuleList_ok_iff patternOk items]
           cases parseRuleList patternOk items <;> rfl)
        | (rw [← parse_rule_ok_iff patternOk (.pdict es)]
           cases parse_rule patternOk (.pdict es) <;> rfl)
        | (cases items <;> rfl)
        | (by_cases hs : s = "" <;>
            simp_all [cleanDomain, Except.isOk, Except.toBool])
        | simp_all [Except.isOk, Except.toBool]
    | pstr s =>
      show (if ¬ RULE_TYPES.contains k then
            (Except.error ("Unknown rule type: " ++ k) : Except String Rule)
          else if k = "or" || k = "any" then
            .error "rule requires a list"
          else if k = "and" || k = "all" then
            .error "rule requires a list"
          else if k = "not" then
            .error "rule requires a dict"
          else if k = "match_all" then
            if s = "" then .ok Rule.matchAll else .error "Failed to parse rule"
          else if k = "domain" then
            match cleanDomain s with
            | .ok d => .ok (Rule.domainR d)
            | .error e => .error e
          else if k = "mime_type" then
            .ok (Rule.mimeTypeR (normalizeMimetype s))
          else if k = "mime_group" then
            .ok (Rule.mimeGroupR s)
          else if k = "pattern" then
            if patternOk s then .ok (Rule.patternR s) else .error "Failed to parse rule"
          else if k = "xpath" then
            .ok (Rule.xpathR s)
          else .error ("Unknown rule type: " ++ k)).isOk =
        (if ¬ RULE_TYPES.contains k then false
          else if k = "or" || k = "any" then
            false
          else if k = "and" || k = "all" then
            false
          else if k = "not" then
            false
          else if k = "match_all" then
            decide (s = "")
          else if k = "domain" then
            decide (s ≠ "")
          else if k = "mime_type" then
            true
          else if k = "mime_group" then
            true
          else if k = "pattern" then
            patternOk s
          else if k = "xpath" then
            true
          else false)
      split_ifs <;>
        first
        | rfl
        | (rw [← parseRuleList_ok_iff patternOk items]
           cases parseRuleList patternOk items <;> rfl)
        | (rw [← parse_rule_ok_iff patternOk (.pdict es)]
           cases parse_rule patternOk (.pdict es) <;> rfl)
        | (cases items <;> rfl)
        | (by_cases hs : s = "" <;>
            simp_all [cleanDomain, Except.isOk, Except.toBool])
        | simp_all [Except.isOk, Except.toBool]
    | pnone =>
      show (if ¬ RULE_TYPES.contains k then
            (Except.error ("Unknown rule type: " ++ k) : Except String Rule)
          else if k = "or" || k = "any" then
            .error "rule requires a list"
          else if k = "and" || k = "all" then
            .error "rule requires a list"
          else if k = "not" then
            .error "rule requires a dict"
          else if k = "match_all" then
            .ok Rule.matchAll
          else if k = "domain" then
            .error "Failed to parse rule"
          else if k = "mime_type" then
            .error "Failed to parse rule"
          else if k = "mime_group" then
            .error "Failed to parse rule"
          else if k = "pattern" then
            .error "Failed to parse rule"
          else if k = "xpath" then
            .error "Failed to parse rule"
          else .error ("Unknown rule type: " ++ k)).isOk =
        (if ¬ RULE_TYPES.contains k then false
          else if k = "or" || k = "any" then
            false
          else if k = "and" || k = "all" then
            false
          else if k = "not" then
            false
          else if k = "match_all" then
            true
          else if k = "domain" then
            false
          else if k = "mime_type" then
            false
          else if k = "mime_group" then
            false
          else if k = "pattern" then
            false
          else if k = "xpath" then
            false
          else false)
      split_ifs <;>
        first
        | rfl
        | (rw [← parseRuleList_ok_iff patternOk items]
           cases parseRuleList patternOk items <;> rfl)
        | (rw [← parse_rule_ok_iff patternOk (.pdict es)]
           cases parse_rule patternOk (.pdict es) <;> rfl)
        | (cases items <;> rfl)
        | (by_cases hs : s = "" <;>
            simp_all [cleanDomain, Except.isOk, Except.toBool])
        | simp_all [Except.isOk, Except.toBool]

theorem parseRuleList_ok_iff (patternOk : String → Bool) :
    (l : SpecList) → (parseRuleList patternOk l).isOk = specOkList patternOk l
  | .nil => rfl
  | .cons s rest => by
    show (match parse_rule patternOk s with
        | .error e => (Except.error e : Except String RuleList)
        | .ok r =>
          match parseRuleList patternOk rest with
          | .error e => .error e
          | .ok rs => .ok (RuleList.cons r rs)).isOk =
      (specOk patternOk s && specOkList patternOk rest)
    rw [← parse_rule_ok_iff patternOk s, ← parseRuleList_ok_iff patternOk rest]
    cases parse_rule patternOk s <;> cases parseRuleList patternOk rest <;> rfl
end

set_option maxHeartbeats 400000

/-! ## Claims about the HTTP layer -/

/-- A URL key is never the empty string: its parts always include the
hash of the whole URL, whose stand-in starts with a letter that survives
the slash-stripping of `join_relpaths`. -/
theorem make_url_key_ne_empty (url method : String) (content : Option String) :
    make_url_key url method content ≠ "" := by
  rcases hu : urlsplitParts url with ⟨netloc, path, query⟩
  have hp : hashData url ∈
      ([pyUpper (if method = "" then "GET" else method), netloc, path]
        ++ (if query ≠ "" then [hashData query] else [])
        ++ (match content with
            | some c => if c ≠ "" then [hashData c] else []
            | none => [])
        ++ [hashData url]) := by
    simp
  have hc : 'h' ∈ (stripChar '/' (hashData url)).data := by
    refine mem_stripChar ?_ (by decide)
    show 'h' ∈ ("h-" ++ url).data
    rw [data_append]
    simp [show ('h' : Char) ∈ "h-".data from by decide]
  obtain ⟨s, hs⟩ := joinRelpaths_isSome hp hc
  have hm := joinRelpaths_mem hs hp hc
  intro he
  simp only [make_url_key, hu, hs, Option.getD] at he
  rw [he] at hm
  simp at hm

/-- C6: the serialize/deserialize round trip.  For every fetched response
(one that has a content hash and an observed status), deserializing the
serialized metadata into a fresh wrapper — in any environment, with no
live request or response attached — yields an object whose `url`,
`status_code` and `content_hash` properties equal those of the original.
-/
theorem serialize_roundtrip (env env2 : HttpEnv) (st : HttpState)
    (w w2 : World) (now now2 : String) (h : String) (s : Int)
    (hh : st.contentHash_ = some h) (hs : statusOf st = some s) :
    urlOf (deserializeOp (serializeOp env st w now).1) = urlOf st ∧
    (statusProp env2 (deserializeOp (serializeOp env st w now).1) w2).1 =
      statusOf st ∧
    (hashProp env2 (deserializeOp (serializeOp env st w now).1) w2 now2).1 =
      st.contentHash_ := by
  have hd : (serializeOp env st w now).1 = serializeDict st := by
    simp [serializeOp, doFetch, hh]
  have hd2 : serializeDict st = .vdict
      [ ("request_id", optStrPy (requestIdOf st))
      , ("status_code", .vint s)
      , ("url", optStrPy (urlOf st))
      , ("content_hash", .vstr h)
      , ("encoding", optStrPy st.encoding_)
      , ("headers", headersToPy (headersOf st))
      , ("retrieved_at", optStrPy st.retrievedAt_) ] := by
    simp [serializeDict, hs, hh, optStrPy]
  rw [hd, hd2, hh, hs]
  refine ⟨?_, ?_, ?_⟩
  · cases hu : urlOf st <;> rfl
  · rfl
  · rfl

/-- C6 witness: a concrete fetched state round-trips through
serialization. -/
theorem serialize_roundtrip_witness :
    urlOf (deserializeOp (serializeOp
        ⟨⟨"crawl", [], [], "run", none, none, false, none⟩, false,
          fun _ => ⟨200, "u", [], ""⟩⟩
        ⟨none, none, some 200, some "u", none, none, none, some "h1", none⟩
        ⟨[], []⟩ "t").1) =
      urlOf ⟨none, none, some 200, some "u", none, none, none, some "h1", none⟩ ∧
    (statusProp
        ⟨⟨"crawl", [], [], "run", none, none, false, none⟩, false,
          fun _ => ⟨200, "u", [], ""⟩⟩
        (deserializeOp (serializeOp
          ⟨⟨"crawl", [], [], "run", none, none, false, none⟩, false,
            fun _ => ⟨200, "u", [], ""⟩⟩
          ⟨none, none, some 200, some "u", none, none, none, some "h1", none⟩
          ⟨[], []⟩ "t").1) ⟨[], []⟩).1 =
      statusOf ⟨none, none, some 200, some "u", none, none, none, some "h1", none⟩ ∧
    (hashProp
        ⟨⟨"crawl", [], [], "run", none, none, false, none⟩, false,
          fun _ => ⟨200, "u", [], ""⟩⟩
        (deserializeOp (serializeOp
          ⟨⟨"crawl", [], [], "run", none, none, false, none⟩, false,
            fun _ => ⟨200, "u", [], ""⟩⟩
          ⟨none, none, some 200, some "u", none, none, none, some "h1", none⟩
          ⟨[], []⟩ "t").1) ⟨[], []⟩ "t2").1 =
      (⟨none, none, some 200, some "u", none, none, none, some "h1", none⟩
        : HttpState).contentHash_ :=
  serialize_roundtrip
    ⟨⟨"crawl", [], [], "run", none, none, false, none⟩, false,
      fun _ => ⟨200, "u", [], ""⟩⟩
    ⟨⟨"crawl", [], [], "run", none, none, false, none⟩, false,
      fun _ => ⟨200, "u", [], ""⟩⟩
    ⟨none, none, some 200, some "u", none, none, none, some "h1", none⟩
    ⟨[], []⟩ ⟨[], []⟩ "t" "t2" "h1" 200 rfl rfl

/-- C5: conditional caching.  For every cacheable request (`GET`/`HEAD`)
with caching enabled, if cached response metadata exists in the tag store
under the request fingerprint and the server answers the conditional
request with `304`, then `fetch` reuses the cached metadata wholesale:
the resulting `content_hash` is the cached one, and no archive write (and
no store change at all) happens. -/
theorem http_cached_304 (env : HttpEnv) (w : World) (now : String)
    (rq : HRequest) (meta : PyVal) (h : String)
    (hm : CACHE_METHODS.contains rq.method = true)
    (hcache : env.cache = true)
    (hsrv : ∀ q, (env.server q).status = 304)
    (htag : env.ctx.get_tag w.tags
        (make_url_key rq.url rq.method
          (match rq.content with
           | some c => if c = "" then none else some c
           | none => none)) = some meta)
    (hh : pyFieldStr meta "content_hash" = some h) :
    (doFetch env (initState (some rq)) w now).2.1.contentHash_ = some h ∧
    (doFetch env (initState (some rq)) w now).2.2 = w ∧
    (doFetch env (initState (some rq)) w now).2.1 =
      applyData (initState (some rq)) meta := by
  have hne := make_url_key_ne_empty rq.url rq.method
    (match rq.content with
     | some c => if c = "" then none else some c
     | none => none)
  have hm2 : rq.method ∈ CACHE_METHODS := by simpa using hm
  have htr : triggerResponse env (initState (some rq)) w =
      applyData (initState (some rq)) meta := by
    simp [triggerResponse, initState, useCache, hcache, hm2, requestIdOf,
      hne, htag, hsrv]
  have hfe : doFetch env (initState (some rq)) w now =
      (none, applyData (initState (some rq)) meta, w) := by
    simp only [doFetch, htr]
    rfl
  rw [hfe]
  exact ⟨by simp [applyData, hh], rfl, rfl⟩

/-- C5 witness: a concrete `GET` against a `304`-answering server with a
cached metadata tag reuses the cached content hash and leaves the world
unchanged. -/
theorem http_cached_304_witness :
    (doFetch
        ⟨⟨"crawl", [], [], "run", none, none, false, none⟩, true,
          fun _ => ⟨304, "u", [], "body"⟩⟩
        (initState (some ⟨"GET", "u", [], none⟩))
        ⟨[("crawl/GET/u/h-u", PyVal.vdict [("content_hash", PyVal.vstr "abc")])],
          []⟩ "t").2.1.contentHash_ = some "abc" ∧
    (doFetch
        ⟨⟨"crawl", [], [], "run", none, none, false, none⟩, true,
          fun _ => ⟨304, "u", [], "body"⟩⟩
        (initState (some ⟨"GET", "u", [], none⟩))
        ⟨[("crawl/GET/u/h-u", PyVal.vdict [("content_hash", PyVal.vstr "abc")])],
          []⟩ "t").2.2 =
      ⟨[("crawl/GET/u/h-u", PyVal.vdict [("content_hash", PyVal.vstr "abc")])],
        []⟩ ∧
    (doFetch
        ⟨⟨"crawl", [], [], "run", none, none, false, none⟩, true,
          fun _ => ⟨304, "u", [], "body"⟩⟩
        (initState (some ⟨"GET", "u", [], none⟩))
        ⟨[("crawl/GET/u/h-u", PyVal.vdict [("content_hash", PyVal.vstr "abc")])],
          []⟩ "t").2.1 =
      applyData (initState (some ⟨"GET", "u", [], none⟩))
        (PyVal.vdict [("content_hash", PyVal.vstr "abc")]) :=
  http_cached_304
    ⟨⟨"crawl", [], [], "run", none, none, false, none⟩, true,
      fun _ => ⟨304, "u", [], "body"⟩⟩
    ⟨[("crawl/GET/u/h-u", PyVal.vdict [("content_hash", PyVal.vstr "abc")])], []⟩
    "t" ⟨"GET", "u", [], none⟩
    (PyVal.vdict [("content_hash", PyVal.vstr "abc")]) "abc"
    (by decide) rfl (fun _ => rfl) rfl rfl

end Memorious
